import Mathlib

/-!
Verification development for the PeriAI repository.

The repository is a TypeScript serverless application (Vercel handlers over a
Postgres database accessed through drizzle-orm, plus OpenAI chat-completion
calls).  This file gives a shallow embedding of the parts of the code the
claims are about:

* the relational schema (`shared/schema.ts`) becomes Lean structures; the
  database becomes an explicit `DB` record of row lists;
* the `DatabaseStorage` methods of `api/_lib/storage.ts` become pure functions
  `DB → DB` (or queries `DB → α`); generated row ids and `new Date()`
  timestamps are passed in as explicit arguments; audit columns
  (`createdAt`/`updatedAt`) that no modeled behaviour reads are omitted,
  except where the code orders by them;
* each OpenAI chat-completion call site becomes a call to an oracle function
  supplied as a parameter: the oracle receives the semantic content of the
  request (conversation history, inquiry fields, preferences, language — the
  data the code renders into its prompt strings) and returns either an error
  (`LLMResult.err`, the promise rejected) or the optional content string of
  `choices[0]?.message?.content`;
* HTTP handlers become functions from their inputs and the current `DB` to a
  response value and the updated `DB`.

JavaScript peculiarities that matter to the claims are modeled explicitly:
`||` on strings treats `""` as falsy, `??` only skips `null`/`undefined`,
`Array.prototype.sort` is a stable sort by comparator sign, and `Math.round`
rounds half toward positive infinity.
-/

namespace PeriAI

/-- Model of `SupportedLanguage` from `api/_lib/aiAgent.ts`. -/
inductive SupportedLanguage where
  | en
  | zh
deriving DecidableEq, Repr

/-- Outcome of one OpenAI chat-completion call as seen by the calling code:
the request either throws, or resolves with `choices[0]?.message?.content`
(`none` when the API returned no content). -/
inductive LLMResult where
  | err
  | ok (content : Option String)
deriving DecidableEq, Repr

/-- A row of `users` (`shared/schema.ts`). -/
structure UserRow where
  id : String
  email : Option String := none
  username : Option String := none
  firstName : Option String := none
  lastName : Option String := none
  languagePreference : String := "en"
  userType : String := "influencer"
  createdAt : Int := 0
deriving DecidableEq, Repr

/-- A row of `influencer_preferences` (`shared/schema.ts`). -/
structure InfluencerPreferences where
  id : String
  userId : String
  personalContentPreferences : String
  monetaryBaseline : Int
  contentLength : String
  additionalGuidelines : Option String := none
deriving DecidableEq, Repr

/-- A row of `inquiries` (`shared/schema.ts`).  Timestamps are integer epoch
milliseconds. -/
structure Inquiry where
  id : String
  influencerId : String
  businessId : Option String := none
  campaignId : Option String := none
  businessEmail : String
  message : String
  price : Option Int := none
  companyInfo : Option String := none
  attachmentUrl : Option String := none
  status : String := "pending"
  chatActive : Bool := true
  aiResponse : Option String := none
  aiRecommendation : Option String := none
  lastBusinessMessageAt : Option Int := none
deriving DecidableEq, Repr

/-- A row of `messages` (`shared/schema.ts`).  Rows are only ever appended, so
list order is creation order; the source's `orderBy(messages.createdAt)` is
therefore insertion order and the column itself is not modeled. -/
structure MessageRow where
  id : String
  inquiryId : String
  role : String
  content : String
deriving DecidableEq, Repr

/-- One influencer candidate as produced by `findInfluencers` in
`api/business/campaigns/process.ts`. -/
structure Candidate where
  id : String
  username : Option String := none
  email : Option String := none
  name : Option String := none
  preferences : Option String := none
  primaryPlatform : Option String := none
  primaryFollowers : Option Int := none
  primaryLikes : Option Int := none
deriving DecidableEq, Repr

/-- A candidate together with the score/reason fields that
`rerankInfluencers` spreads onto it (`{ ...inf, score, reason }`); the
early-return paths keep the input objects, i.e. both fields `none`.
LLM scores are exact rationals (JS numbers never hit FP rounding in any claim
we settle). -/
structure RankedInfluencer where
  influencer : Candidate
  score : Option Rat := none
  reason : Option String := none
deriving DecidableEq, Repr

/-- A row of `campaigns` (`shared/schema.ts`); `matchedInfluencers` is a jsonb
column that the code only ever fills with the reranked candidate list. -/
structure Campaign where
  id : String
  businessId : String
  productDetails : String := ""
  campaignGoal : String := ""
  targetAudience : String := ""
  budgetMin : Option Int := none
  budgetMax : Option Int := none
  timeline : String := ""
  deliverables : String := ""
  additionalRequirements : Option String := none
  status : String := "processing"
  searchCriteria : Option String := none
  matchedInfluencers : Option (List RankedInfluencer) := none
  createdAt : Int := 0
deriving DecidableEq, Repr

/-- A row of `influencer_social_accounts` (referenced by the left join in
`findInfluencers`); only the joined columns are modeled. -/
structure SocialAccount where
  userId : String
  platform : String
  followers : Option Int := none
  likes : Option Int := none
  isPrimary : Bool := false
deriving DecidableEq, Repr

/-- The database state: one list of rows per table used by the modeled code. -/
structure DB where
  users : List UserRow := []
  influencerPreferences : List InfluencerPreferences := []
  inquiries : List Inquiry := []
  messages : List MessageRow := []
  campaigns : List Campaign := []
  socialAccounts : List SocialAccount := []
deriving DecidableEq, Repr

/-- The inquiry-status enum of the schema, as the TypeScript union type used by
`updateInquiryStatus`. -/
inductive InquiryStatus where
  | pending
  | approved
  | rejected
  | needs_info
deriving DecidableEq, Repr

/-- The string the enum value stores in the `status` varchar column. -/
def InquiryStatus.toDbValue : InquiryStatus → String
  | .pending => "pending"
  | .approved => "approved"
  | .rejected => "rejected"
  | .needs_info => "needs_info"

/-- The campaign-status enum of the schema, as the TypeScript union type used
by `updateCampaignStatus`. -/
inductive CampaignStatus where
  | processing
  | waiting_approval
  | negotiating
  | waiting_response
  | deal
  | denied
deriving DecidableEq, Repr

/-- The string the enum value stores in the `status` varchar column. -/
def CampaignStatus.toDbValue : CampaignStatus → String
  | .processing => "processing"
  | .waiting_approval => "waiting_approval"
  | .negotiating => "negotiating"
  | .waiting_response => "waiting_response"
  | .deal => "deal"
  | .denied => "denied"

/-- The status argument type of `saveCampaignSearchResult`
(`"processing" | "waiting_approval"`). -/
inductive SearchSaveStatus where
  | processing
  | waiting_approval
deriving DecidableEq, Repr

/-- The string stored by `saveCampaignSearchResult` for its status argument. -/
def SearchSaveStatus.toDbValue : SearchSaveStatus → String
  | .processing => "processing"
  | .waiting_approval => "waiting_approval"

/-! ## Storage operations (`api/_lib/storage.ts`, class `DatabaseStorage`) -/

/-- Model of `getUser`: `select from users where id = id`, first row. -/
def getUser (id : String) (db : DB) : Option UserRow :=
  db.users.find? (fun u => u.id == id)

/-- Model of `getInfluencerPreferences`: `select from influencer_preferences where
userId = userId`, first row. -/
def getInfluencerPreferences (userId : String) (db : DB) : Option InfluencerPreferences :=
  db.influencerPreferences.find? (fun p => p.userId == userId)

/-- Model of `getInquiry`: `select from inquiries where id = id`, first row. -/
def getInquiry (id : String) (db : DB) : Option Inquiry :=
  db.inquiries.find? (fun i => i.id == id)

/-- Model of `getMessagesByInquiry`: all messages of the inquiry in creation order
(see `MessageRow` on why the `orderBy(createdAt)` is insertion order). -/
def getMessagesByInquiry (inquiryId : String) (db : DB) : List MessageRow :=
  db.messages.filter (fun m => m.inquiryId == inquiryId)

/-- Model of `addMessage`: insert one message row (the generated id is part of the
supplied row). -/
def addMessage (message : MessageRow) (db : DB) : DB :=
  { db with messages := db.messages ++ [message] }

/-- The row update performed by `updateInquiryStatus`: sets `status`, and sets
`aiResponse` only when the optional argument was actually passed (drizzle
skips `undefined` columns). -/
def inquiryStatusUpd (status : InquiryStatus) (aiResponse : Option String) (i : Inquiry) : Inquiry :=
  { i with
    status := status.toDbValue,
    aiResponse := match aiResponse with
      | some m => some m
      | none => i.aiResponse }

/-- Model of `updateInquiryStatus`: update the matching inquiry row. -/
def updateInquiryStatus (id : String) (status : InquiryStatus) (aiResponse : Option String)
    (db : DB) : DB :=
  { db with inquiries := db.inquiries.map (fun i => if i.id = id then inquiryStatusUpd status aiResponse i else i) }

/-- The row update performed by `closeInquiryChat`: `chatActive := false` and
store the recommendation. -/
def closeUpd (aiRecommendation : String) (i : Inquiry) : Inquiry :=
  { i with chatActive := false, aiRecommendation := some aiRecommendation }

/-- Model of `closeInquiryChat`: update the matching inquiry row. -/
def closeInquiryChat (id : String) (aiRecommendation : String) (db : DB) : DB :=
  { db with inquiries := db.inquiries.map (fun i => if i.id = id then closeUpd aiRecommendation i else i) }

/-- Model of `updateLastBusinessMessage`: set `lastBusinessMessageAt` to the current
time on the matching inquiry row. -/
def updateLastBusinessMessage (id : String) (now : Int) (db : DB) : DB :=
  { db with inquiries := db.inquiries.map (fun i => if i.id = id then { i with lastBusinessMessageAt := some now } else i) }

/-- The `where` predicate of `getIdleOpenInquiries`: `chatActive = true`,
`lastBusinessMessageAt is not null`, `lastBusinessMessageAt <= threshold`. -/
def idleFilter (threshold : Int) (i : Inquiry) : Bool :=
  i.chatActive &&
    (match i.lastBusinessMessageAt with
     | some t => t ≤ threshold
     | none => false)

/-- Model of `getIdleOpenInquiries`: the single threshold query, ordered by
`lastBusinessMessageAt` descending (all selected rows have the column
non-null, so the `getD` default is never the deciding key). -/
def getIdleOpenInquiries (threshold : Int) (db : DB) : List Inquiry :=
  (db.inquiries.filter (idleFilter threshold)).insertionSort
    (fun a b => b.lastBusinessMessageAt.getD 0 ≤ a.lastBusinessMessageAt.getD 0)

/-- Model of `deleteInquiry`: delete the matching inquiry rows. -/
def deleteInquiry (id : String) (db : DB) : DB :=
  { db with inquiries := db.inquiries.filter (fun i => !(i.id == id)) }

/-- The insert payload of `createInquiry` (`InsertInquiry`: the schema minus
the omitted/generated columns). -/
structure InsertInquiry where
  influencerId : String
  businessId : Option String := none
  campaignId : Option String := none
  businessEmail : String
  message : String
  price : Option Int := none
  companyInfo : Option String := none
  attachmentUrl : Option String := none
deriving DecidableEq, Repr

/-- Model of `createInquiry`: insert `{ ...inquiry, lastBusinessMessageAt: new Date() }`;
`status` and `chatActive` take their schema defaults (`"pending"`, `true`).
Returns the created row and the new state. -/
def createInquiry (newId : String) (now : Int) (ins : InsertInquiry) (db : DB) : Inquiry × DB :=
  let row : Inquiry :=
    { id := newId,
      influencerId := ins.influencerId,
      businessId := ins.businessId,
      campaignId := ins.campaignId,
      businessEmail := ins.businessEmail,
      message := ins.message,
      price := ins.price,
      companyInfo := ins.companyInfo,
      attachmentUrl := ins.attachmentUrl,
      status := "pending",
      chatActive := true,
      aiResponse := none,
      aiRecommendation := none,
      lastBusinessMessageAt := some now }
  (row, { db with inquiries := db.inquiries ++ [row] })

/-- The insert payload of `createCampaign` (`InsertCampaign`). -/
structure InsertCampaign where
  businessId : String
  productDetails : String := ""
  campaignGoal : String := ""
  targetAudience : String := ""
  budgetMin : Option Int := none
  budgetMax : Option Int := none
  timeline : String := ""
  deliverables : String := ""
  additionalRequirements : Option String := none
deriving DecidableEq, Repr

/-- Model of `createCampaign`: insert `{ ...campaign, status: "processing" }`.  Returns
the created row and the new state. -/
def createCampaign (newId : String) (now : Int) (ins : InsertCampaign) (db : DB) : Campaign × DB :=
  let row : Campaign :=
    { id := newId,
      businessId := ins.businessId,
      productDetails := ins.productDetails,
      campaignGoal := ins.campaignGoal,
      targetAudience := ins.targetAudience,
      budgetMin := ins.budgetMin,
      budgetMax := ins.budgetMax,
      timeline := ins.timeline,
      deliverables := ins.deliverables,
      additionalRequirements := ins.additionalRequirements,
      status := "processing",
      searchCriteria := none,
      matchedInfluencers := none,
      createdAt := now }
  (row, { db with campaigns := db.campaigns ++ [row] })

/-- Model of `updateCampaignStatus`: update the matching campaign row. -/
def updateCampaignStatus (id : String) (status : CampaignStatus) (db : DB) : DB :=
  { db with campaigns := db.campaigns.map (fun c => if c.id = id then { c with status := status.toDbValue } else c) }

/-- The row update of `saveCampaignSearchResult` (`?? null` writes `null` when
a field is absent, so both data columns are always overwritten). -/
def saveSearchUpd (status : SearchSaveStatus) (searchCriteria : Option String)
    (matchedInfluencers : Option (List RankedInfluencer)) (c : Campaign) : Campaign :=
  { c with
    status := status.toDbValue,
    searchCriteria := searchCriteria,
    matchedInfluencers := matchedInfluencers }

/-- Model of `saveCampaignSearchResult`: update the matching campaign row. -/
def saveCampaignSearchResult (id : String) (status : SearchSaveStatus)
    (searchCriteria : Option String) (matchedInfluencers : Option (List RankedInfluencer))
    (db : DB) : DB :=
  { db with campaigns := db.campaigns.map (fun c => if c.id = id then saveSearchUpd status searchCriteria matchedInfluencers c else c) }

/-- Model of `getOldestProcessingCampaign`: the business's `"processing"` campaigns,
ordered by `createdAt` ascending, limit 1. -/
def getOldestProcessingCampaign (businessId : String) (db : DB) : Option Campaign :=
  ((db.campaigns.filter (fun c => c.businessId == businessId && c.status == "processing")).insertionSort
    (fun a b => a.createdAt ≤ b.createdAt)).head?

/-! ## String helpers (JavaScript semantics) -/

/-- Whether `pat` occurs as a contiguous run inside `l` (the semantics of
JavaScript `String.prototype.includes` on the character level). -/
def charListContains (pat : List Char) : List Char → Bool
  | [] => pat.isEmpty
  | c :: rest => pat.isPrefixOf (c :: rest) || charListContains pat rest

/-- JavaScript `s.includes(pat)`. -/
def strIncludes (s pat : String) : Bool :=
  charListContains pat.data s.data

/-- JavaScript `toLowerCase` as it acts on the ASCII range (all characters the
modeled data exercises), implemented structurally so terms evaluate in the
kernel. -/
def jsCharToLower (c : Char) : Char :=
  if 'A' ≤ c && c ≤ 'Z' then Char.ofNat (c.toNat + 32) else c

/-- JavaScript `s.toLowerCase()`. -/
def jsToLower (s : String) : String :=
  ⟨s.data.map jsCharToLower⟩

/-- The whitespace characters JS `trim` strips (the ones occurring in the
modeled data). -/
def isJsSpace (c : Char) : Bool :=
  c = ' ' || c = '\t' || c = '\n' || c = '\r'

/-- JavaScript `s.trim()`. -/
def jsTrim (s : String) : String :=
  ⟨((s.data.dropWhile isJsSpace).reverse.dropWhile isJsSpace).reverse⟩

/-- JavaScript `s.startsWith(pre)`. -/
def jsStartsWith (s pre : String) : Bool :=
  pre.data.isPrefixOf s.data

/-- Collapse a JavaScript optional string to `none` when it is absent or
empty, mirroring how `||` skips both `undefined` and `""`. -/
def nonemptyOpt : Option String → Option String
  | some v => if v = "" then none else some v
  | none => none

/-- JavaScript `[firstName, lastName].filter(Boolean).join(' ')`. -/
def joinNameParts (firstName lastName : Option String) : String :=
  String.intercalate " " (([firstName, lastName].filterMap id).filter (fun s => s ≠ ""))

/-! ## AI agent (`api/_lib/aiAgent.ts`) -/

/-- Model of `FALLBACK_RECOMMENDATION` from `api/_lib/aiAgent.ts`. -/
def FALLBACK_RECOMMENDATION : SupportedLanguage → String
  | .en => "**NEEDS INFO**\n\nUnable to generate a recommendation. Please review the conversation manually.\n\n**Key Details:**\n- Budget: Not discussed\n- Timeline: Not discussed\n- Deliverables: Not discussed"
  | .zh => "**需要更多信息**\n\n暂时无法生成建议，请手动查看对话内容。\n\n**关键信息：**\n- 预算：未提及\n- 时间：未提及\n- 交付内容：未提及"

/-- Model of `FALLBACK_CHAT_RESPONSE` from `api/_lib/aiAgent.ts`. -/
def FALLBACK_CHAT_RESPONSE : SupportedLanguage → String
  | .en => "Could you elaborate on that?"
  | .zh => "可以再详细说明一下吗？"

/-- The `{ businessEmail, message, price, companyInfo }` record every agent
call receives. -/
structure InquiryContext where
  businessEmail : String
  message : String
  price : Option Int := none
  companyInfo : Option String := none
deriving DecidableEq, Repr

/-- Semantic content of the prompt `generateRecommendation` renders: the
conversation history, the initial inquiry details, the influencer preferences
quoted in the system prompt, and the language. -/
structure RecommendationRequest where
  history : List MessageRow
  inquiry : InquiryContext
  preferences : InfluencerPreferences
  language : SupportedLanguage
deriving DecidableEq, Repr

/-- Model of `generateRecommendation`: asks the LLM, returns
`content || FALLBACK_RECOMMENDATION[language]` (so an error, a missing
content, and an empty content all yield the fallback). -/
def generateRecommendation (llm : RecommendationRequest → LLMResult)
    (req : RecommendationRequest) : String :=
  match llm req with
  | .ok (some c) => if c = "" then FALLBACK_RECOMMENDATION req.language else c
  | .ok none => FALLBACK_RECOMMENDATION req.language
  | .err => FALLBACK_RECOMMENDATION req.language

/-- Semantic content of the prompt `generateChatResponse` renders. -/
structure ChatRequest where
  history : List MessageRow
  inquiry : InquiryContext
  preferences : InfluencerPreferences
  language : SupportedLanguage
deriving DecidableEq, Repr

/-- Model of `generateChatResponse`: forwards the non-`system` turns of the history and
returns `content || FALLBACK_CHAT_RESPONSE[language]`. -/
def generateChatResponse (llm : ChatRequest → LLMResult) (conversationHistory : List MessageRow)
    (inquiry : InquiryContext) (preferences : InfluencerPreferences)
    (language : SupportedLanguage) : String :=
  let req : ChatRequest :=
    { history := conversationHistory.filter (fun m => m.role ≠ "system"),
      inquiry := inquiry,
      preferences := preferences,
      language := language }
  match llm req with
  | .ok (some c) => if c = "" then FALLBACK_CHAT_RESPONSE language else c
  | .ok none => FALLBACK_CHAT_RESPONSE language
  | .err => FALLBACK_CHAT_RESPONSE language

/-- JavaScript `Math.round` on an exact rational: round half toward positive
infinity.  (All inputs the code produces are exact halves of int4 sums, far
inside the 2^53 range where IEEE doubles are exact.) -/
def jsRound (q : Rat) : Int :=
  ⌊q + 1 / 2⌋

/-- The defaulted baseline of `computeFallbackOfferPrice`
(`preferences?.monetaryBaseline ?? 500`). -/
def fallbackBaseline (preferences : Option InfluencerPreferences) : Int :=
  (preferences.map (fun p => p.monetaryBaseline)).getD 500

/-- The defaulted `budgetMin` of `computeFallbackOfferPrice`
(`campaign?.budgetMin ?? baseline`). -/
def fallbackBudgetMin (preferences : Option InfluencerPreferences)
    (campaign : Option Campaign) : Int :=
  (campaign.bind (fun c => c.budgetMin)).getD (fallbackBaseline preferences)

/-- The defaulted `budgetMax` of `computeFallbackOfferPrice`
(`campaign?.budgetMax ?? budgetMin`). -/
def fallbackBudgetMax (preferences : Option InfluencerPreferences)
    (campaign : Option Campaign) : Int :=
  (campaign.bind (fun c => c.budgetMax)).getD (fallbackBudgetMin preferences campaign)

/-- Model of `computeFallbackOfferPrice` from `api/_lib/aiAgent.ts` (the three `??`
defaults are the named helpers above).  The TS signature returns
`number | undefined`, but every path returns a number. -/
def computeFallbackOfferPrice (preferences : Option InfluencerPreferences)
    (campaign : Option Campaign) : Int :=
  let baseline := fallbackBaseline preferences
  let budgetMax := fallbackBudgetMax preferences campaign
  if budgetMax ≤ 0 then baseline
  else
    let anchor := max baseline (fallbackBudgetMin preferences campaign)
    let midpoint : Rat := ((anchor : Rat) + (budgetMax : Rat)) / 2
    let capped : Rat := min (max (anchor : Rat) midpoint) (budgetMax : Rat)
    jsRound capped

/-! ## HTTP handlers -/

/-- An HTTP response: either an error status with its message, or a JSON
payload.  Side-effect-only actions the handlers perform against external
services (sending notification email, console logging) are not modeled. -/
inductive HttpOut (α : Type) where
  | status (code : Nat) (message : String)
  | json (payload : α)
deriving DecidableEq, Repr

/-- The default preferences object the handlers construct when the influencer
has none stored. -/
def defaultPreferences (influencerId : String) : InfluencerPreferences :=
  { id := "default",
    userId := influencerId,
    personalContentPreferences := "Various collaboration opportunities",
    monetaryBaseline := 500,
    contentLength := "Flexible",
    additionalGuidelines := none }

/-- Language resolution shared by the close and messages handlers: the request
body's language if it parsed to `en`/`zh`, else `zh` exactly when the
influencer's stored preference is `"zh"`, else `en`. -/
def resolveLanguage (requestLanguage : Option SupportedLanguage)
    (influencerUser : Option UserRow) : SupportedLanguage :=
  match requestLanguage with
  | some l => l
  | none =>
    if (influencerUser.map (fun u => u.languagePreference)).getD "en" = "zh" then .zh else .en

/-- The recommendation request the close endpoint builds for an open inquiry
(`api/inquiries/[id]/close.ts`, lines 38–78). -/
def closeRecommendationRequest (requestLanguage : Option SupportedLanguage) (db : DB)
    (inquiry : Inquiry) : RecommendationRequest :=
  { history := getMessagesByInquiry inquiry.id db,
    inquiry :=
      { businessEmail := inquiry.businessEmail,
        message := inquiry.message,
        price := inquiry.price,
        companyInfo := inquiry.companyInfo },
    preferences := (getInfluencerPreferences inquiry.influencerId db).getD
      (defaultPreferences inquiry.influencerId),
    language := resolveLanguage requestLanguage (getUser inquiry.influencerId db) }

/-- Result of the close endpoint: the response, the new database state, and
whether a recommendation LLM call was made. -/
structure CloseOutcome where
  response : HttpOut Inquiry
  db : DB
  llmCalled : Bool
deriving DecidableEq, Repr

/-- Model of `POST /api/inquiries/[id]/close` (`api/inquiries/[id]/close.ts`).  The
response row of `closeInquiryChat(...).returning()` is the fetched inquiry
with the close update applied (ids are unique in the database). -/
def closeHandler (inquiryId : String) (requestLanguage : Option SupportedLanguage)
    (llm : RecommendationRequest → LLMResult) (db : DB) : CloseOutcome :=
  if inquiryId = "" then ⟨.status 400 "Inquiry ID is required", db, false⟩
  else
    match getInquiry inquiryId db with
    | none => ⟨.status 404 "Inquiry not found", db, false⟩
    | some inquiry =>
      if !inquiry.chatActive then ⟨.json inquiry, db, false⟩
      else
        let recommendation :=
          generateRecommendation llm (closeRecommendationRequest requestLanguage db inquiry)
        ⟨.json (closeUpd recommendation inquiry), closeInquiryChat inquiryId recommendation db, true⟩

/-- Model of `IDLE_MINUTES` from `api/cron/close-idle-chats.ts`. -/
def IDLE_MINUTES : Int := 10

/-- The recommendation the cron generates for one idle inquiry
(`api/cron/close-idle-chats.ts`, lines 38–68): same default preferences, and
language from the influencer's stored preference only. -/
def cronRecommendation (llm : RecommendationRequest → LLMResult) (db : DB)
    (inquiry : Inquiry) : String :=
  generateRecommendation llm
    { history := getMessagesByInquiry inquiry.id db,
      inquiry :=
        { businessEmail := inquiry.businessEmail,
          message := inquiry.message,
          price := inquiry.price,
          companyInfo := inquiry.companyInfo },
      preferences := (getInfluencerPreferences inquiry.influencerId db).getD
        (defaultPreferences inquiry.influencerId),
      language := resolveLanguage none (getUser inquiry.influencerId db) }

/-- One iteration of the cron loop: generate the recommendation from the
current state and close the inquiry. -/
def cronStep (llm : RecommendationRequest → LLMResult) (acc : DB) (inquiry : Inquiry) : DB :=
  closeInquiryChat inquiry.id (cronRecommendation llm acc inquiry) acc

/-- The body of the idle-chat cron (`api/cron/close-idle-chats.ts`) after
authorization: one threshold query, then close each selected inquiry with a
generated recommendation.  Returns the final state and the ids reported as
closed.  (The per-inquiry `try/catch` is vacuous in the model: the storage
operations are total and `generateRecommendation` catches its own errors.) -/
def cronCloseIdleChats (now : Int) (llm : RecommendationRequest → LLMResult)
    (db : DB) : DB × List String :=
  let threshold := now - IDLE_MINUTES * 60 * 1000
  let idleInquiries := getIdleOpenInquiries threshold db
  (idleInquiries.foldl (cronStep llm) db,
   idleInquiries.map (fun i => i.id))

/-- The chat request built by the messages POST handler
(`api/inquiries/[id]/messages/index.ts`, lines 58–98), evaluated in the state
`db` that already contains the just-added business message. -/
def messagesChatRequestHistory (inquiryId : String) (db : DB) : List MessageRow :=
  getMessagesByInquiry inquiryId db

/-- Model of `POST /api/inquiries/[id]/messages` (`handlePost` in
`api/inquiries/[id]/messages/index.ts`).  `userMessageId`/`aiMessageId` stand
for the generated row ids and `now` for `new Date()`. -/
def messagesPost (inquiryId : String) (content : Option String)
    (requestLanguage : Option SupportedLanguage) (llm : ChatRequest → LLMResult)
    (userMessageId aiMessageId : String) (now : Int) (db : DB) :
    HttpOut (MessageRow × MessageRow) × DB :=
  if inquiryId = "" then (.status 400 "Inquiry ID is required", db)
  else
    match content with
    | none => (.status 400 "Message content is required", db)
    | some content =>
      if content = "" then (.status 400 "Message content is required", db)
      else
        match getInquiry inquiryId db with
        | none => (.status 404 "Inquiry not found", db)
        | some inquiry =>
          if !inquiry.chatActive then (.status 400 "This conversation has been closed", db)
          else
            let userMessage : MessageRow :=
              { id := userMessageId, inquiryId := inquiryId, role := "user", content := content }
            let db1 := addMessage userMessage db
            let db2 := updateLastBusinessMessage inquiryId now db1
            let conversationHistory := messagesChatRequestHistory inquiryId db2
            let preferences := (getInfluencerPreferences inquiry.influencerId db2).getD
              (defaultPreferences inquiry.influencerId)
            let resolvedLanguage :=
              resolveLanguage requestLanguage (getUser inquiry.influencerId db2)
            let aiResponseContent := generateChatResponse llm conversationHistory
              { businessEmail := inquiry.businessEmail,
                message := inquiry.message,
                price := inquiry.price,
                companyInfo := inquiry.companyInfo }
              preferences resolvedLanguage
            let aiMessage : MessageRow :=
              { id := aiMessageId, inquiryId := inquiryId, role := "assistant",
                content := aiResponseContent }
            (.json (userMessage, aiMessage), addMessage aiMessage db2)

/-- The status strings accepted by the PATCH status endpoint (the
`['pending', 'approved', 'rejected', 'needs_info'].includes(status)` check). -/
def parseInquiryStatus (s : String) : Option InquiryStatus :=
  if s = "pending" then some .pending
  else if s = "approved" then some .approved
  else if s = "rejected" then some .rejected
  else if s = "needs_info" then some .needs_info
  else none

/-- Model of `PATCH /api/inquiries/[id]/status` (`api/inquiries/[id]/status.ts`).  The
email notification (fire-and-forget, failure swallowed) is external I/O and
not modeled; the response row is the fetched inquiry with the status update
applied. -/
def statusHandler (inquiryId : String) (statusRaw : String) (message : Option String)
    (db : DB) : HttpOut Inquiry × DB :=
  if inquiryId = "" then (.status 400 "Inquiry ID is required", db)
  else
    match parseInquiryStatus statusRaw with
    | none => (.status 400 "Invalid status", db)
    | some status =>
      match getInquiry inquiryId db with
      | none => (.status 404 "Inquiry not found", db)
      | some inquiry =>
        let db1 := updateInquiryStatus inquiryId status message db
        let db2 :=
          match inquiry.campaignId with
          | some campaignId =>
            match status with
            | .approved => updateCampaignStatus campaignId .deal db1
            | .rejected => updateCampaignStatus campaignId .denied db1
            | _ => db1
          | none => db1
        (.json (inquiryStatusUpd status message inquiry), db2)

/-! ## Campaign processing pipeline (`api/business/campaigns/process.ts`) -/

/-- The JSON filter shape `extractFilters` asks the LLM for. -/
structure SearchFilter where
  keywords : Option (List String) := none
  languages : Option (List String) := none
  regions : Option (List String) := none
  minBudget : Option Int := none
  maxBudget : Option Int := none
  contentTypes : Option (List String) := none
deriving DecidableEq, Repr

/-- Outcome of the filter-extraction LLM call: `err` covers both a rejected
request and a `JSON.parse` failure; `ok` carries the parsed object (a null
content parses the `"{}"` default, i.e. the filter with every field absent). -/
inductive ExtractResult where
  | err
  | ok (filter : SearchFilter)
deriving DecidableEq, Repr

/-- One item of the `ranked` array the rerank LLM returns. -/
structure RankedEntry where
  id : String
  score : Option Rat := none
  reason : Option String := none
deriving DecidableEq, Repr

/-- Outcome of the rerank LLM call: `err` as above; `ok none` is a parsed
object without a `ranked` key (`parsed.ranked || []` treats it as empty). -/
inductive RerankResult where
  | err
  | ok (ranked : Option (List RankedEntry))
deriving DecidableEq, Repr

/-- Observable steps of one `process.ts` run, in execution order. -/
inductive PipelineStep where
  | llmGenerateCriteria
  | llmExtractFilters
  | dbFindInfluencers
  | llmRerank
  | saveSearchResult (status : String)
deriving DecidableEq, Repr

/-- Model of `generateCriteria`: one LLM call; the result is
`content?.trim() || null`, and an error yields `null`. -/
def generateCriteria (llm : Campaign → LLMResult) (campaign : Campaign) : Option String :=
  match llm campaign with
  | .ok (some c) => if jsTrim c = "" then none else some (jsTrim c)
  | .ok none => none
  | .err => none

/-- Model of `extractFilters`: returns `null` without calling the LLM when the criteria
text is falsy; otherwise one LLM call whose error path also yields `null`.
The second component records whether the LLM call happened. -/
def extractFilters (llm : String × Campaign → ExtractResult) (criteriaText : Option String)
    (campaign : Campaign) : Option SearchFilter × List PipelineStep :=
  match criteriaText with
  | none => (none, [])
  | some text =>
    if text = "" then (none, [])
    else
      match llm (text, campaign) with
      | .err => (none, [.llmExtractFilters])
      | .ok f => (some f, [.llmExtractFilters])

/-- The language condition `findInfluencers` pushes when
`filters?.languages?.length` is truthy:
`languagePreference = languages[0].toLowerCase().startsWith("zh") ? "zh" : "en"`. -/
def findLanguageCond (filters : Option SearchFilter) (u : UserRow) : Bool :=
  match filters with
  | some f =>
    match f.languages with
    | some (l0 :: _) =>
      u.languagePreference == (if jsStartsWith (jsToLower l0) "zh" then "zh" else "en")
    | _ => true
  | none => true

/-- The post-query budget filter of `findInfluencers`:
`if (filters.maxBudget && baseline > filters.maxBudget) return false` (a zero
`maxBudget` is falsy and filters nothing). -/
def findBudgetCond (filters : Option SearchFilter) (baseline : Int) : Bool :=
  match filters with
  | some f =>
    match f.maxBudget with
    | some mb => !(mb ≠ 0 && baseline > mb)
    | none => true
  | none => true

/-- Model of `findInfluencers`: influencer users matching the language condition,
newest first, limit 10, left-joined with their preferences and primary social
account, budget-filtered, and shaped into candidates
(`name` is `[firstName, lastName].filter(Boolean).join(' ') || username ||
undefined`). -/
def findInfluencers (filters : Option SearchFilter) (db : DB) : List Candidate :=
  let rows :=
    ((db.users.filter (fun u => u.userType == "influencer" && findLanguageCond filters u)).insertionSort
      (fun a b => b.createdAt ≤ a.createdAt)).take 10
  let joined := rows.map (fun u =>
    (u, db.influencerPreferences.find? (fun p => p.userId == u.id),
     db.socialAccounts.find? (fun a => a.userId == u.id && a.isPrimary)))
  let filtered := joined.filter (fun r =>
    findBudgetCond filters ((r.2.1.map (fun p => p.monetaryBaseline)).getD 0))
  filtered.map (fun r =>
    { id := r.1.id,
      username := r.1.username,
      email := r.1.email,
      name := nonemptyOpt (some (joinNameParts r.1.firstName r.1.lastName)) <|>
        nonemptyOpt r.1.username,
      preferences := r.2.1.map (fun p => p.personalContentPreferences),
      primaryPlatform := (r.2.2.map (fun a => a.platform)),
      primaryFollowers := r.2.2.bind (fun a => a.followers),
      primaryLikes := r.2.2.bind (fun a => a.likes) })

/-- The early-return paths of `rerankInfluencers` return the input candidates
themselves: no `score`/`reason` fields. -/
def toUnranked (influencers : List Candidate) : List RankedInfluencer :=
  influencers.map (fun c => { influencer := c })

/-- Model of `(inf.name || inf.username || "").trim().toLowerCase()`. -/
def displayNameOf (c : Candidate) : String :=
  jsToLower (jsTrim ((nonemptyOpt c.name <|> nonemptyOpt c.username).getD ""))

/-- The `rankedMap` lookup of `rerankInfluencers`: entries with a falsy id are
skipped, and `Map.set` makes the last entry for an id win. -/
def rankedLookup (entries : List RankedEntry) (id : String) : Option RankedEntry :=
  ((entries.filter (fun r => r.id ≠ "")).reverse).find? (fun r => r.id == id)

/-- The adjusted score `rerankInfluencers` computes for one candidate: `-2`
for an empty display name, `-1` for a display name containing `"test"`, else
the LLM score defaulted to `0`. -/
def adjustedScoreOf (entries : List RankedEntry) (c : Candidate) : Rat :=
  let baseScore := ((rankedLookup entries c.id).bind (fun r => r.score)).getD 0
  let displayName := displayNameOf c
  if displayName = "" then -2
  else if strIncludes displayName "test" then -1
  else baseScore

/-- Sort key of the final `.sort((a, b) => (b.score ?? 0) - (a.score ?? 0))`. -/
def scoreKey (r : RankedInfluencer) : Rat :=
  r.score.getD 0

/-- The comparator order of that sort: `a` may precede `b` iff
`b.score ?? 0 ≤ a.score ?? 0` (non-increasing scores). -/
def scoreDescRel (a b : RankedInfluencer) : Prop :=
  scoreKey b ≤ scoreKey a

instance : DecidableRel scoreDescRel := fun a b =>
  inferInstanceAs (Decidable (scoreKey b ≤ scoreKey a))

/-- Model of `rerankInfluencers`: falsy criteria or an empty candidate list return the
input unchanged with no LLM call; an LLM error returns the input unchanged
after the call; otherwise every candidate gets its adjusted score and the
list is stably sorted by score, descending (`Array.prototype.sort` is stable
and the comparator is the score difference).  The second component records
whether the LLM call happened. -/
def rerankInfluencers (llm : String × List Candidate → RerankResult)
    (criteria : Option String) (influencers : List Candidate) :
    List RankedInfluencer × List PipelineStep :=
  match criteria with
  | none => (toUnranked influencers, [])
  | some criteriaText =>
    if criteriaText = "" || influencers.isEmpty then (toUnranked influencers, [])
    else
      match llm (criteriaText, influencers) with
      | .err => (toUnranked influencers, [.llmRerank])
      | .ok ranked =>
        let entries := ranked.getD []
        let scored := influencers.map (fun inf =>
          ({ influencer := inf,
             score := some (adjustedScoreOf entries inf),
             reason := (rankedLookup entries inf.id).bind (fun r => r.reason) } : RankedInfluencer))
        (scored.insertionSort scoreDescRel, [.llmRerank])

/-- Stand-in for `JSON.stringify(filters)` (its exact rendering is not load
bearing for any claim; braces written via escapes). -/
def encodeStringList (l : List String) : String :=
  "[" ++ String.intercalate "," (l.map (fun s => "\x22" ++ s ++ "\x22")) ++ "]"

/-- Stand-in for `JSON.stringify` on a `SearchFilter`. -/
def encodeFilter (f : SearchFilter) : String :=
  "\x7b" ++
    String.intercalate ","
      (((f.keywords.map (fun l => "\x22keywords\x22:" ++ encodeStringList l)).toList) ++
       ((f.languages.map (fun l => "\x22languages\x22:" ++ encodeStringList l)).toList) ++
       ((f.regions.map (fun l => "\x22regions\x22:" ++ encodeStringList l)).toList) ++
       ((f.minBudget.map (fun n => "\x22minBudget\x22:" ++ toString n)).toList) ++
       ((f.maxBudget.map (fun n => "\x22maxBudget\x22:" ++ toString n)).toList) ++
       ((f.contentTypes.map (fun l => "\x22contentTypes\x22:" ++ encodeStringList l)).toList)) ++
  "\x7d"

/-- The `searchCriteria` value saved by the final
`saveCampaignSearchResult`:
`filters ? JSON.stringify(filters) : criteria || "No criteria generated"`. -/
def savedSearchCriteria (filters : Option SearchFilter) (criteria : Option String) : String :=
  match filters with
  | some f => encodeFilter f
  | none =>
    match criteria with
    | some c => if c = "" then "No criteria generated" else c
    | none => "No criteria generated"

/-- The three LLM call sites of `process.ts`. -/
structure ProcessOracles where
  criteriaLLM : Campaign → LLMResult
  extractLLM : String × Campaign → ExtractResult
  rerankLLM : String × List Candidate → RerankResult

/-- Result of the process endpoint: response, new state, and the step trace. -/
structure ProcessOutcome where
  response : HttpOut Campaign
  db : DB
  trace : List PipelineStep
deriving Repr

/-- Model of `POST /api/business/campaigns/process` (the default export of
`api/business/campaigns/process.ts`). -/
def processHandler (user : UserRow) (o : ProcessOracles) (db : DB) : ProcessOutcome :=
  if user.userType ≠ "business" then ⟨.status 403 "Business access required", db, []⟩
  else
    match getOldestProcessingCampaign user.id db with
    | none => ⟨.status 404 "No campaigns to process", db, []⟩
    | some candidate =>
      let db1 := saveCampaignSearchResult candidate.id .processing none none db
      let criteria := generateCriteria o.criteriaLLM candidate
      let extracted := extractFilters o.extractLLM criteria candidate
      let filters := extracted.1
      let influencers := findInfluencers filters db1
      let reranked := rerankInfluencers o.rerankLLM criteria influencers
      let ranked := reranked.1
      let criteriaText := savedSearchCriteria filters criteria
      let db2 := saveCampaignSearchResult candidate.id .waiting_approval
        (some criteriaText) (some ranked) db1
      ⟨.json (saveSearchUpd .waiting_approval (some criteriaText) (some ranked)
          (saveSearchUpd .processing none none candidate)),
       db2,
       [.saveSearchResult "processing", .llmGenerateCriteria] ++ extracted.2 ++
         [.dbFindInfluencers] ++ reranked.2 ++ [.saveSearchResult "waiting_approval"]⟩

/-! ## Concrete fixtures used by witnesses and counterexamples -/

/-- Stored preferences for the fixture influencer. -/
def exPrefs : InfluencerPreferences :=
  { id := "p1", userId := "inf1", personalContentPreferences := "Tech reviews",
    monetaryBaseline := 800, contentLength := "1-2 min" }

/-- The fixture influencer user. -/
def exUser : UserRow :=
  { id := "inf1", username := some "alice" }

/-- An open fixture inquiry with an idle-eligible last business message. -/
def exInquiryOpen : Inquiry :=
  { id := "q1", influencerId := "inf1", businessEmail := "brand@example.com",
    message := "Collab?", chatActive := true, lastBusinessMessageAt := some 0 }

/-- A closed fixture inquiry linked to a campaign. -/
def exInquiryClosed : Inquiry :=
  { id := "q2", influencerId := "inf1", businessEmail := "brand@example.com",
    message := "Collab?", chatActive := false, campaignId := some "camp1" }

/-- A processing fixture campaign. -/
def exCampaign : Campaign :=
  { id := "camp1", businessId := "biz1", status := "processing", createdAt := 5 }

/-- The fixture database. -/
def exDB : DB :=
  { users := [exUser],
    influencerPreferences := [exPrefs],
    inquiries := [exInquiryOpen, exInquiryClosed],
    messages := [],
    campaigns := [exCampaign] }

/-! ## Arithmetic facts about `jsRound` -/

theorem jsRound_mono {q r : Rat} (h : q ≤ r) : jsRound q ≤ jsRound r :=
  Int.floor_le_floor (by linarith)

theorem jsRound_intCast (n : Int) : jsRound ((n : Rat)) = n := by
  have h0 : ⌊(1 : Rat) / 2⌋ = 0 := by
    rw [Int.floor_eq_zero_iff]
    constructor <;> norm_num
  unfold jsRound
  rw [Int.floor_int_add, h0, add_zero]

/-- C10: `computeFallbackOfferPrice` always returns a price; with the three
`??` defaults applied, a non-positive `budgetMax` returns the baseline, and
otherwise the rounded capped midpoint lies between
`min(max(baseline, budgetMin), budgetMax)` and `budgetMax`. -/
theorem computeFallbackOfferPrice_spec (p : Option InfluencerPreferences)
    (c : Option Campaign) :
    (fallbackBudgetMax p c ≤ 0 → computeFallbackOfferPrice p c = fallbackBaseline p) ∧
    (0 < fallbackBudgetMax p c →
      min (max (fallbackBaseline p) (fallbackBudgetMin p c)) (fallbackBudgetMax p c) ≤
          computeFallbackOfferPrice p c ∧
        computeFallbackOfferPrice p c ≤ fallbackBudgetMax p c) := by
  constructor
  · intro h
    simp only [computeFallbackOfferPrice]
    rw [if_pos h]
  · intro h
    have hne : ¬ fallbackBudgetMax p c ≤ 0 := not_le.mpr h
    simp only [computeFallbackOfferPrice]
    rw [if_neg hne]
    set A := max (fallbackBaseline p) (fallbackBudgetMin p c) with hA
    set M := fallbackBudgetMax p c with hM
    have hqM : min (max (A : Rat) (((A : Rat) + (M : Rat)) / 2)) (M : Rat) ≤ ((M : Rat)) :=
      min_le_right _ _
    have hlow : ((min A M : Int) : Rat) ≤ min (max (A : Rat) (((A : Rat) + (M : Rat)) / 2)) (M : Rat) := by
      push_cast
      exact min_le_min (le_max_left _ _) le_rfl
    constructor
    · calc min A M = jsRound ((min A M : Int) : Rat) := (jsRound_intCast _).symm
        _ ≤ _ := jsRound_mono hlow
    · calc jsRound _ ≤ jsRound ((M : Int) : Rat) := jsRound_mono hqM
        _ = M := jsRound_intCast _

/-- Witness for C10 at `p = none`, `c = none` (all defaults, price 500). -/
theorem computeFallbackOfferPrice_spec_witness :
    0 < fallbackBudgetMax none none ∧
      (min (max (fallbackBaseline none) (fallbackBudgetMin none none)) (fallbackBudgetMax none none) ≤
          computeFallbackOfferPrice none none ∧
        computeFallbackOfferPrice none none ≤ fallbackBudgetMax none none) :=
  ⟨by decide, (computeFallbackOfferPrice_spec none none).2 (by decide)⟩

/-- C8: posting to the close endpoint for an inquiry whose chat is already
closed returns the stored inquiry unchanged, leaves the whole database
untouched, and makes no recommendation LLM call. -/
theorem closeHandler_idempotent_when_closed (inquiryId : String)
    (requestLanguage : Option SupportedLanguage) (llm : RecommendationRequest → LLMResult)
    (db : DB) (inquiry : Inquiry)
    (hid : inquiryId ≠ "")
    (hfind : getInquiry inquiryId db = some inquiry)
    (hclosed : inquiry.chatActive = false) :
    closeHandler inquiryId requestLanguage llm db = ⟨.json inquiry, db, false⟩ := by
  simp [closeHandler, hid, hfind, hclosed]

/-- Witness for C8 on the fixture database's closed inquiry. -/
theorem closeHandler_idempotent_when_closed_witness :
    ("q2" ≠ "" ∧ getInquiry "q2" exDB = some exInquiryClosed ∧
        exInquiryClosed.chatActive = false) ∧
      closeHandler "q2" none (fun _ => .ok (some "ignored")) exDB =
        ⟨.json exInquiryClosed, exDB, false⟩ :=
  ⟨⟨by decide, by decide, by decide⟩,
   closeHandler_idempotent_when_closed "q2" none (fun _ => .ok (some "ignored")) exDB
     exInquiryClosed (by decide) (by decide) (by decide)⟩

/-- C9: posting a message to an inquiry whose chat is closed fails atomically
with status 400 "This conversation has been closed" and an unchanged
database. -/
theorem messagesPost_closed_chat (inquiryId content : String)
    (requestLanguage : Option SupportedLanguage) (llm : ChatRequest → LLMResult)
    (userMessageId aiMessageId : String) (now : Int) (db : DB) (inquiry : Inquiry)
    (hid : inquiryId ≠ "") (hcontent : content ≠ "")
    (hfind : getInquiry inquiryId db = some inquiry)
    (hclosed : inquiry.chatActive = false) :
    messagesPost inquiryId (some content) requestLanguage llm userMessageId aiMessageId now db =
      (.status 400 "This conversation has been closed", db) := by
  simp [messagesPost, hid, hcontent, hfind, hclosed]

/-- Witness for C9 on the fixture database's closed inquiry. -/
theorem messagesPost_closed_chat_witness :
    ("q2" ≠ "" ∧ "hello" ≠ "" ∧ getInquiry "q2" exDB = some exInquiryClosed ∧
        exInquiryClosed.chatActive = false) ∧
      messagesPost "q2" (some "hello") none (fun _ => .err) "m1" "m2" 77 exDB =
        (.status 400 "This conversation has been closed", exDB) :=
  ⟨⟨by decide, by decide, by decide, by decide⟩,
   messagesPost_closed_chat "q2" "hello" none (fun _ => .err) "m1" "m2" 77 exDB
     exInquiryClosed (by decide) (by decide) (by decide) (by decide)⟩

/-- C3: the PATCH status endpoint with a valid status mirrors the decision on
the linked campaign (`approved ↦ deal`, `rejected ↦ denied`, `pending` and
`needs_info` leave campaigns untouched), and an invalid status yields 400
with the database unchanged. -/
theorem statusHandler_campaign_transitions :
    (∀ (inquiryId : String) (st : InquiryStatus) (message : Option String) (db : DB)
        (inquiry : Inquiry) (campaignId : String),
      inquiryId ≠ "" →
      getInquiry inquiryId db = some inquiry →
      inquiry.campaignId = some campaignId →
      ((st = .approved →
          (statusHandler inquiryId st.toDbValue message db).2.campaigns =
            db.campaigns.map (fun c => if c.id = campaignId then { c with status := "deal" } else c)) ∧
       (st = .rejected →
          (statusHandler inquiryId st.toDbValue message db).2.campaigns =
            db.campaigns.map (fun c => if c.id = campaignId then { c with status := "denied" } else c)) ∧
       (st = .pending ∨ st = .needs_info →
          (statusHandler inquiryId st.toDbValue message db).2.campaigns = db.campaigns))) ∧
    (∀ (inquiryId statusRaw : String) (message : Option String) (db : DB),
      inquiryId ≠ "" →
      parseInquiryStatus statusRaw = none →
      statusHandler inquiryId statusRaw message db = (.status 400 "Invalid status", db)) := by
  have hparse : ∀ st : InquiryStatus, parseInquiryStatus st.toDbValue = some st := by
    intro st; cases st <;> decide
  constructor
  · intro inquiryId st message db inquiry campaignId hid hfind hcamp
    refine ⟨?_, ?_, ?_⟩
    · rintro rfl
      simp [statusHandler, hid, hparse, hfind, hcamp, updateCampaignStatus,
        updateInquiryStatus, CampaignStatus.toDbValue]
    · rintro rfl
      simp [statusHandler, hid, hparse, hfind, hcamp, updateCampaignStatus,
        updateInquiryStatus, CampaignStatus.toDbValue]
    · rintro (rfl | rfl) <;>
        simp [statusHandler, hid, hparse, hfind, hcamp, updateInquiryStatus]
  · intro inquiryId statusRaw message db hid hbad
    simp [statusHandler, hid, hbad]

/-- Witness for C3: approving the fixture inquiry linked to the fixture
campaign marks that campaign `deal`. -/
theorem statusHandler_campaign_transitions_witness :
    ("q2" ≠ "" ∧ getInquiry "q2" exDB = some exInquiryClosed ∧
        exInquiryClosed.campaignId = some "camp1") ∧
      (statusHandler "q2" InquiryStatus.approved.toDbValue (some "ok") exDB).2.campaigns =
        exDB.campaigns.map (fun c => if c.id = "camp1" then { c with status := "deal" } else c) :=
  ⟨⟨by decide, by decide, by decide⟩,
   (statusHandler_campaign_transitions.1 "q2" .approved (some "ok") exDB exInquiryClosed
       "camp1" (by decide) (by decide) (by decide)).1 rfl⟩

/-! ## Status-enum invariants (C7) -/

/-- The inquiry-status enum values of the schema. -/
def inquiryStatusValues : List String :=
  ["pending", "approved", "rejected", "needs_info"]

/-- The campaign-status enum values of the schema. -/
def campaignStatusValues : List String :=
  ["processing", "waiting_approval", "negotiating", "waiting_response", "deal", "denied"]

/-- The state-enum invariant: every stored inquiry status and campaign status
is one of the schema's enum values. -/
def ValidStatusDB (db : DB) : Prop :=
  (∀ i ∈ db.inquiries, i.status ∈ inquiryStatusValues) ∧
  (∀ c ∈ db.campaigns, c.status ∈ campaignStatusValues)

instance (db : DB) : Decidable (ValidStatusDB db) :=
  inferInstanceAs (Decidable (_ ∧ _))

theorem inquiryStatus_toDbValue_mem (st : InquiryStatus) :
    st.toDbValue ∈ inquiryStatusValues := by
  cases st <;> decide

theorem campaignStatus_toDbValue_mem (st : CampaignStatus) :
    st.toDbValue ∈ campaignStatusValues := by
  cases st <;> decide

theorem searchSaveStatus_toDbValue_mem (st : SearchSaveStatus) :
    st.toDbValue ∈ campaignStatusValues := by
  cases st <;> decide

/-- C7: every modeled storage operation preserves the state-enum invariants,
newly created inquiries start at `"pending"`, and newly created campaigns
start at `"processing"`. -/
theorem storage_preserves_status_enums :
    (∀ newId now ins db, (createInquiry newId now ins db).1.status = "pending") ∧
    (∀ newId now ins db, ValidStatusDB db → ValidStatusDB (createInquiry newId now ins db).2) ∧
    (∀ newId now ins db, (createCampaign newId now ins db).1.status = "processing") ∧
    (∀ newId now ins db, ValidStatusDB db → ValidStatusDB (createCampaign newId now ins db).2) ∧
    (∀ id st message db, ValidStatusDB db → ValidStatusDB (updateInquiryStatus id st message db)) ∧
    (∀ id st db, ValidStatusDB db → ValidStatusDB (updateCampaignStatus id st db)) ∧
    (∀ id st sc mi db, ValidStatusDB db → ValidStatusDB (saveCampaignSearchResult id st sc mi db)) ∧
    (∀ id r db, ValidStatusDB db → ValidStatusDB (closeInquiryChat id r db)) ∧
    (∀ id now db, ValidStatusDB db → ValidStatusDB (updateLastBusinessMessage id now db)) ∧
    (∀ id db, ValidStatusDB db → ValidStatusDB (deleteInquiry id db)) ∧
    (∀ m db, ValidStatusDB db → ValidStatusDB (addMessage m db)) := by
  refine ⟨fun _ _ _ _ => rfl, ?_, fun _ _ _ _ => rfl, ?_, ?_, ?_, ?_, ?_, ?_, ?_, ?_⟩
  · rintro newId now ins db ⟨hi, hc⟩
    refine ⟨?_, hc⟩
    intro i hi'
    rcases List.mem_append.1 hi' with h | h
    · exact hi i h
    · rcases List.mem_singleton.1 h with rfl
      show "pending" ∈ inquiryStatusValues
      decide
  · rintro newId now ins db ⟨hi, hc⟩
    refine ⟨hi, ?_⟩
    intro c hc'
    rcases List.mem_append.1 hc' with h | h
    · exact hc c h
    · rcases List.mem_singleton.1 h with rfl
      show "processing" ∈ campaignStatusValues
      decide
  · rintro id st message db ⟨hi, hc⟩
    refine ⟨?_, hc⟩
    intro i hi'
    rcases List.mem_map.1 hi' with ⟨j, hj, rfl⟩
    by_cases h : j.id = id
    · simp only [h, if_pos rfl, inquiryStatusUpd]
      exact inquiryStatus_toDbValue_mem st
    · simp only [if_neg h]
      exact hi j hj
  · rintro id st db ⟨hi, hc⟩
    refine ⟨hi, ?_⟩
    intro c hc'
    rcases List.mem_map.1 hc' with ⟨j, hj, rfl⟩
    by_cases h : j.id = id
    · simp only [h, if_pos rfl]
      exact campaignStatus_toDbValue_mem st
    · simp only [if_neg h]
      exact hc j hj
  · rintro id st sc mi db ⟨hi, hc⟩
    refine ⟨hi, ?_⟩
    intro c hc'
    rcases List.mem_map.1 hc' with ⟨j, hj, rfl⟩
    by_cases h : j.id = id
    · simp only [h, if_pos rfl, saveSearchUpd]
      exact searchSaveStatus_toDbValue_mem st
    · simp only [if_neg h]
      exact hc j hj
  · rintro id r db ⟨hi, hc⟩
    refine ⟨?_, hc⟩
    intro i hi'
    rcases List.mem_map.1 hi' with ⟨j, hj, rfl⟩
    by_cases h : j.id = id
    · simp only [h, if_pos rfl, closeUpd]
      exact hi j hj
    · simp only [if_neg h]
      exact hi j hj
  · rintro id now db ⟨hi, hc⟩
    refine ⟨?_, hc⟩
    intro i hi'
    rcases List.mem_map.1 hi' with ⟨j, hj, rfl⟩
    by_cases h : j.id = id
    · simp only [h, if_pos rfl]
      exact hi j hj
    · simp only [if_neg h]
      exact hi j hj
  · rintro id db ⟨hi, hc⟩
    exact ⟨fun i hi' => hi i (List.mem_of_mem_filter hi'), hc⟩
  · rintro m db ⟨hi, hc⟩
    exact ⟨hi, hc⟩

/-- Witness for C7: creating an inquiry in the (valid) fixture database keeps
it valid and the new row starts `"pending"`. -/
theorem storage_preserves_status_enums_witness :
    ((createInquiry "q9" 3
        { influencerId := "inf1", businessEmail := "b@x.com", message := "hi" } exDB).1.status =
      "pending") ∧
    (ValidStatusDB exDB ∧
      ValidStatusDB (createInquiry "q9" 3
        { influencerId := "inf1", businessEmail := "b@x.com", message := "hi" } exDB).2) :=
  ⟨storage_preserves_status_enums.1 "q9" 3 _ exDB,
   by decide,
   storage_preserves_status_enums.2.1 "q9" 3
     { influencerId := "inf1", businessEmail := "b@x.com", message := "hi" } exDB (by decide)⟩

/-- C6: posting a business message to an open chat appends exactly two
messages — the business message with role `"user"`, then an assistant reply
generated from the full conversation history (including the new message) and
the influencer's stored-or-default preferences — and stamps the inquiry's
`lastBusinessMessageAt`; nothing else in the database changes. -/
theorem messagesPost_appends_two (inquiryId content : String)
    (requestLanguage : Option SupportedLanguage) (llm : ChatRequest → LLMResult)
    (userMessageId aiMessageId : String) (now : Int) (db : DB) (inquiry : Inquiry)
    (hid : inquiryId ≠ "") (hcontent : content ≠ "")
    (hfind : getInquiry inquiryId db = some inquiry)
    (hactive : inquiry.chatActive = true) :
    (messagesPost inquiryId (some content) requestLanguage llm userMessageId aiMessageId now db).2.messages =
        db.messages ++
          [{ id := userMessageId, inquiryId := inquiryId, role := "user", content := content },
           { id := aiMessageId, inquiryId := inquiryId, role := "assistant",
             content := generateChatResponse llm
               (getMessagesByInquiry inquiryId db ++
                 [{ id := userMessageId, inquiryId := inquiryId, role := "user", content := content }])
               { businessEmail := inquiry.businessEmail, message := inquiry.message,
                 price := inquiry.price, companyInfo := inquiry.companyInfo }
               ((getInfluencerPreferences inquiry.influencerId db).getD
                 (defaultPreferences inquiry.influencerId))
               (resolveLanguage requestLanguage (getUser inquiry.influencerId db)) }] ∧
      (messagesPost inquiryId (some content) requestLanguage llm userMessageId aiMessageId now db).2.inquiries =
        db.inquiries.map
          (fun i => if i.id = inquiryId then { i with lastBusinessMessageAt := some now } else i) ∧
      (getInfluencerPreferences inquiry.influencerId db = none →
        ((getInfluencerPreferences inquiry.influencerId db).getD
            (defaultPreferences inquiry.influencerId)).monetaryBaseline = 500) ∧
      (messagesPost inquiryId (some content) requestLanguage llm userMessageId aiMessageId now db).2.users =
        db.users ∧
      (messagesPost inquiryId (some content) requestLanguage llm userMessageId aiMessageId now db).2.campaigns =
        db.campaigns ∧
      (messagesPost inquiryId (some content) requestLanguage llm userMessageId aiMessageId now db).2.influencerPreferences =
        db.influencerPreferences := by
  refine ⟨?_, ?_, ?_, ?_, ?_, ?_⟩ <;>
    first
      | (intro h; rw [h]; rfl)
      | simp [messagesPost, hid, hcontent, hfind, hactive, addMessage,
          updateLastBusinessMessage, getMessagesByInquiry, messagesChatRequestHistory,
          getInfluencerPreferences, getUser, List.filter_append]

/-- Witness for C6 on the fixture database's open inquiry. -/
theorem messagesPost_appends_two_witness :
    ("q1" ≠ "" ∧ "hi there" ≠ "" ∧ getInquiry "q1" exDB = some exInquiryOpen ∧
        exInquiryOpen.chatActive = true) ∧
      (messagesPost "q1" (some "hi there") none (fun _ => .ok (some "Sounds good!"))
          "m1" "m2" 99 exDB).2.inquiries =
        exDB.inquiries.map
          (fun i => if i.id = "q1" then { i with lastBusinessMessageAt := some 99 } else i) :=
  ⟨⟨by decide, by decide, by decide, by decide⟩,
   (messagesPost_appends_two "q1" "hi there" none (fun _ => .ok (some "Sounds good!"))
       "m1" "m2" 99 exDB exInquiryOpen (by decide) (by decide) (by decide) (by decide)).2.1⟩

/-! ## Behaviour of the idle-chat cron (C2, shared with C1) -/

/-- Closing an inquiry does not change the tables the recommendation reads
(messages, preferences, users), so the generated recommendation is stable
under earlier closes. -/
theorem cronRecommendation_closeInquiryChat (llm : RecommendationRequest → LLMResult)
    (id r : String) (db : DB) (inquiry : Inquiry) :
    cronRecommendation llm (closeInquiryChat id r db) inquiry =
      cronRecommendation llm db inquiry := rfl

/-- The cron loop never touches any table other than `inquiries`. -/
theorem cronFold_fixed (llm : RecommendationRequest → LLMResult) :
    ∀ (L : List Inquiry) (db : DB),
      (L.foldl (cronStep llm) db).users = db.users ∧
      (L.foldl (cronStep llm) db).influencerPreferences = db.influencerPreferences ∧
      (L.foldl (cronStep llm) db).messages = db.messages ∧
      (L.foldl (cronStep llm) db).campaigns = db.campaigns ∧
      (L.foldl (cronStep llm) db).socialAccounts = db.socialAccounts
  | [], _ => ⟨rfl, rfl, rfl, rfl, rfl⟩
  | l :: L, db => cronFold_fixed llm L (cronStep llm db l)

theorem inquiry_eq_of_id_eq {l : List Inquiry} (h : (l.map (fun i => i.id)).Nodup)
    {x y : Inquiry} (hx : x ∈ l) (hy : y ∈ l) (hid : x.id = y.id) : x = y :=
  List.inj_on_of_nodup_map h hx hy hid

/-- Characterization of the cron's fold over a duplicate-free selection: every
selected id gets the close update with its recommendation generated from the
initial state, every other row is untouched. -/
theorem cronFold_inquiries (llm : RecommendationRequest → LLMResult) :
    ∀ (L : List Inquiry) (db : DB),
      (db.inquiries.map (fun i => i.id)).Nodup →
      (∀ x ∈ L, x ∈ db.inquiries) →
      (L.map (fun i => i.id)).Nodup →
      (L.foldl (cronStep llm) db).inquiries =
        db.inquiries.map (fun x =>
          if x.id ∈ L.map (fun i => i.id) then closeUpd (cronRecommendation llm db x) x else x)
  | [], db, _, _, _ => by simp
  | l :: L, db, hdb, hsub, hL => by
    have hLn : l.id ∉ L.map (fun i => i.id) ∧ (L.map (fun i => i.id)).Nodup := by
      simpa using hL
    have hldb : l ∈ db.inquiries := hsub l (List.mem_cons_self l L)
    have h1 : (cronStep llm db l).inquiries =
        db.inquiries.map (fun x =>
          if x.id = l.id then closeUpd (cronRecommendation llm db l) x else x) := rfl
    have hids : ((cronStep llm db l).inquiries.map (fun i => i.id)) =
        db.inquiries.map (fun i => i.id) := by
      rw [h1, List.map_map]
      apply List.map_congr_left
      intro a _
      by_cases h : a.id = l.id <;> simp [Function.comp, h, closeUpd]
    have hsub1 : ∀ x ∈ L, x ∈ (cronStep llm db l).inquiries := by
      intro x hx
      have hxdb := hsub x (List.mem_cons_of_mem _ hx)
      have hxid : ¬ x.id = l.id := by
        intro he
        exact hLn.1 (he ▸ List.mem_map_of_mem (fun i => i.id) hx)
      rw [h1]
      exact List.mem_map.2 ⟨x, hxdb, by rw [if_neg hxid]⟩
    have ih := cronFold_inquiries llm L (cronStep llm db l) (hids ▸ hdb) hsub1 hLn.2
    rw [List.foldl_cons, ih, h1, List.map_map]
    apply List.map_congr_left
    intro x hx
    simp only [Function.comp, cronStep, cronRecommendation_closeInquiryChat]
    by_cases hxl : x.id = l.id
    · have hxeq : x = l := inquiry_eq_of_id_eq hdb hx hldb hxl
      rw [if_pos hxl]
      have hnotin : ¬ (closeUpd (cronRecommendation llm db l) x).id ∈ L.map (fun i => i.id) := by
        simpa [closeUpd, hxl] using hLn.1
      rw [if_neg hnotin, hxeq]
      simp
    · rw [if_neg hxl]
      by_cases hmem : x.id ∈ L.map (fun i => i.id)
      · rw [if_pos hmem, if_pos (by simp [hxl, hmem])]
      · rw [if_neg hmem, if_neg (by simp [hxl, hmem])]

/-- The boolean idle predicate, semantically. -/
theorem idleFilter_iff (threshold : Int) (x : Inquiry) :
    idleFilter threshold x = true ↔
      x.chatActive = true ∧ ∃ t, x.lastBusinessMessageAt = some t ∧ t ≤ threshold := by
  unfold idleFilter
  cases h : x.lastBusinessMessageAt <;> simp [h]

/-- For a duplicate-free inquiry table, a row's id is in the selection's ids
iff the row itself satisfies the idle predicate. -/
theorem mem_idle_ids_iff (threshold : Int) (db : DB)
    (hids : (db.inquiries.map (fun i => i.id)).Nodup)
    {x : Inquiry} (hx : x ∈ db.inquiries) :
    x.id ∈ (getIdleOpenInquiries threshold db).map (fun i => i.id) ↔
      idleFilter threshold x = true := by
  constructor
  · intro h
    rcases List.mem_map.1 h with ⟨y, hy, hyid⟩
    have hy' : y ∈ db.inquiries.filter (idleFilter threshold) :=
      (List.mem_insertionSort _).1 hy
    have hyf := List.of_mem_filter hy'
    have : y = x := inquiry_eq_of_id_eq hids (List.mem_of_mem_filter hy') hx hyid
    exact this ▸ hyf
  · intro h
    have : x ∈ getIdleOpenInquiries threshold db :=
      (List.mem_insertionSort _).2 (List.mem_filter.2 ⟨hx, h⟩)
    exact List.mem_map_of_mem _ this

/-- C2: the idle-chat cron selects, with the single threshold query, exactly
the inquiries that are open with a non-null `lastBusinessMessageAt` at or
before `now - IDLE_MINUTES` minutes; every selected inquiry is closed with a
stored recommendation and nothing else in the database is touched. -/
theorem cron_closes_exactly_idle (now : Int) (llm : RecommendationRequest → LLMResult)
    (db : DB) (hids : (db.inquiries.map (fun i => i.id)).Nodup) :
    (∀ x ∈ db.inquiries,
      (x ∈ getIdleOpenInquiries (now - IDLE_MINUTES * 60 * 1000) db ↔
        x.chatActive = true ∧
          ∃ t, x.lastBusinessMessageAt = some t ∧ t ≤ now - IDLE_MINUTES * 60 * 1000)) ∧
    (cronCloseIdleChats now llm db).1.inquiries =
      db.inquiries.map (fun x =>
        if idleFilter (now - IDLE_MINUTES * 60 * 1000) x
        then closeUpd (cronRecommendation llm db x) x else x) ∧
    (cronCloseIdleChats now llm db).1.users = db.users ∧
    (cronCloseIdleChats now llm db).1.influencerPreferences = db.influencerPreferences ∧
    (cronCloseIdleChats now llm db).1.messages = db.messages ∧
    (cronCloseIdleChats now llm db).1.campaigns = db.campaigns := by
  have hsub : ∀ x ∈ getIdleOpenInquiries (now - IDLE_MINUTES * 60 * 1000) db,
      x ∈ db.inquiries := by
    intro x hx
    exact List.mem_of_mem_filter ((List.mem_insertionSort _).1 hx)
  have hselids : ((getIdleOpenInquiries (now - IDLE_MINUTES * 60 * 1000) db).map
      (fun i => i.id)).Nodup := by
    have hperm : (getIdleOpenInquiries (now - IDLE_MINUTES * 60 * 1000) db).Perm
        (db.inquiries.filter (idleFilter (now - IDLE_MINUTES * 60 * 1000))) :=
      List.perm_insertionSort _ _
    have hfilter : ((db.inquiries.filter
        (idleFilter (now - IDLE_MINUTES * 60 * 1000))).map (fun i => i.id)).Nodup :=
      ((List.filter_sublist db.inquiries).map (fun i : Inquiry => i.id)).nodup hids
    exact (hperm.map (fun i => i.id)).nodup_iff.2 hfilter
  refine ⟨?_, ?_, (cronFold_fixed llm _ db).1, (cronFold_fixed llm _ db).2.1,
    (cronFold_fixed llm _ db).2.2.1, (cronFold_fixed llm _ db).2.2.2.1⟩
  · intro x hx
    rw [← idleFilter_iff]
    constructor
    · intro h
      exact List.of_mem_filter ((List.mem_insertionSort _).1 h)
    · intro h
      exact (List.mem_insertionSort _).2 (List.mem_filter.2 ⟨hx, h⟩)
  · have hfold := cronFold_inquiries llm
      (getIdleOpenInquiries (now - IDLE_MINUTES * 60 * 1000) db) db hids hsub hselids
    show ((getIdleOpenInquiries (now - IDLE_MINUTES * 60 * 1000) db).foldl
        (cronStep llm) db).inquiries = _
    rw [hfold]
    apply List.map_congr_left
    intro x hx
    by_cases hf : idleFilter (now - IDLE_MINUTES * 60 * 1000) x = true
    · rw [if_pos ((mem_idle_ids_iff _ db hids hx).2 hf), if_pos hf]
    · rw [if_neg (fun h => hf ((mem_idle_ids_iff _ db hids hx).1 h)), if_neg hf]

/-- Witness for C2 on the fixture database at `now = 10^9` (the open inquiry
is idle, the closed one is not selected). -/
theorem cron_closes_exactly_idle_witness :
    ((exDB.inquiries.map (fun i => i.id)).Nodup) ∧
      (cronCloseIdleChats 1000000000 (fun _ => .ok (some "**APPROVE**")) exDB).1.inquiries =
        exDB.inquiries.map (fun x =>
          if idleFilter (1000000000 - IDLE_MINUTES * 60 * 1000) x
          then closeUpd
            (cronRecommendation (fun _ => .ok (some "**APPROVE**")) exDB x) x else x) :=
  ⟨by decide,
   (cron_closes_exactly_idle 1000000000 (fun _ => .ok (some "**APPROVE**")) exDB
     (by decide)).2.1⟩

/-! ## The close endpoint's recommendation (C1) -/

/-- Follows the spec's words, for comparison with the code: a "structured
recommendation (approve/reject/needs-info)" carries one of the three outcome
markers that the recommendation prompts mandate, in either supported
language. -/
def classifiesOutcome (s : String) : Bool :=
  strIncludes s "APPROVE" || strIncludes s "REJECT" || strIncludes s "NEEDS INFO" ||
    strIncludes s "批准" || strIncludes s "拒绝" || strIncludes s "需要更多信息"

/-- Whether a recommendation string carries the needs-info marker of either
language's fallback. -/
def carriesNeedsInfoMarker (s : String) : Bool :=
  strIncludes s "NEEDS INFO" || strIncludes s "需要更多信息"

/-- C1 counterexample: closing the fixture's open chat while the LLM replies
the unstructured string `"hello"` stores exactly `"hello"` as the
recommendation — a stored recommendation that classifies no outcome, so the
claim as stated fails. -/
theorem close_stores_unstructured_counterexample :
    (closeHandler "q1" none (fun _ => .ok (some "hello")) exDB).db.inquiries =
        [closeUpd "hello" exInquiryOpen, exInquiryClosed] ∧
      classifiesOutcome "hello" = false := by
  constructor
  · rfl
  · decide

/-- C1 (amended): every chat closed by the close endpoint or the idle cron
stores exactly the string produced by `generateRecommendation` and flips
`chatActive` off; that string is the LLM output verbatim whenever the output
is non-empty (the code does not validate its structure), and otherwise a
language-appropriate fallback that classifies the outcome as needs-info. -/
theorem close_stores_generated_recommendation :
    (∀ (inquiryId : String) (requestLanguage : Option SupportedLanguage)
        (llm : RecommendationRequest → LLMResult) (db : DB) (inquiry : Inquiry),
      inquiryId ≠ "" →
      getInquiry inquiryId db = some inquiry →
      inquiry.chatActive = true →
      (closeHandler inquiryId requestLanguage llm db).db.inquiries =
        db.inquiries.map (fun x =>
          if x.id = inquiryId
          then closeUpd
            (generateRecommendation llm (closeRecommendationRequest requestLanguage db inquiry)) x
          else x)) ∧
    (∀ (now : Int) (llm : RecommendationRequest → LLMResult) (db : DB),
      (db.inquiries.map (fun i => i.id)).Nodup →
      (cronCloseIdleChats now llm db).1.inquiries =
        db.inquiries.map (fun x =>
          if idleFilter (now - IDLE_MINUTES * 60 * 1000) x
          then closeUpd (cronRecommendation llm db x) x else x)) ∧
    (∀ (llm : RecommendationRequest → LLMResult) (req : RecommendationRequest) (c : String),
      llm req = .ok (some c) → c ≠ "" → generateRecommendation llm req = c) ∧
    (∀ (llm : RecommendationRequest → LLMResult) (req : RecommendationRequest),
      llm req = .err ∨ llm req = .ok none ∨ llm req = .ok (some "") →
      generateRecommendation llm req = FALLBACK_RECOMMENDATION req.language) ∧
    (∀ language : SupportedLanguage,
      carriesNeedsInfoMarker (FALLBACK_RECOMMENDATION language) = true ∧
        classifiesOutcome (FALLBACK_RECOMMENDATION language) = true) := by
  refine ⟨?_, ?_, ?_, ?_, ?_⟩
  · intro inquiryId requestLanguage llm db inquiry hid hfind hactive
    simp [closeHandler, hid, hfind, hactive, closeInquiryChat]
  · intro now llm db hids
    have hsub : ∀ x ∈ getIdleOpenInquiries (now - IDLE_MINUTES * 60 * 1000) db,
        x ∈ db.inquiries := by
      intro x hx
      exact List.mem_of_mem_filter ((List.mem_insertionSort _).1 hx)
    have hselids : ((getIdleOpenInquiries (now - IDLE_MINUTES * 60 * 1000) db).map
        (fun i => i.id)).Nodup := by
      have hperm : (getIdleOpenInquiries (now - IDLE_MINUTES * 60 * 1000) db).Perm
          (db.inquiries.filter (idleFilter (now - IDLE_MINUTES * 60 * 1000))) :=
        List.perm_insertionSort _ _
      have hfilter : ((db.inquiries.filter
          (idleFilter (now - IDLE_MINUTES * 60 * 1000))).map (fun i => i.id)).Nodup :=
        ((List.filter_sublist db.inquiries).map (fun i : Inquiry => i.id)).nodup hids
      exact (hperm.map (fun i => i.id)).nodup_iff.2 hfilter
    have hfold := cronFold_inquiries llm
      (getIdleOpenInquiries (now - IDLE_MINUTES * 60 * 1000) db) db hids hsub hselids
    show ((getIdleOpenInquiries (now - IDLE_MINUTES * 60 * 1000) db).foldl
        (cronStep llm) db).inquiries = _
    rw [hfold]
    apply List.map_congr_left
    intro x hx
    by_cases hf : idleFilter (now - IDLE_MINUTES * 60 * 1000) x = true
    · rw [if_pos ((mem_idle_ids_iff _ db hids hx).2 hf), if_pos hf]
    · rw [if_neg (fun h => hf ((mem_idle_ids_iff _ db hids hx).1 h)), if_neg hf]
  · intro llm req c h hc
    simp [generateRecommendation, h, hc]
  · rintro llm req (h | h | h) <;> simp [generateRecommendation, h]
  · intro language
    cases language <;> exact ⟨by decide, by decide⟩

/-- Witness for C1 (amended): closing the fixture's open chat stores the
generated recommendation on the matching row. -/
theorem close_stores_generated_recommendation_witness :
    ("q1" ≠ "" ∧ getInquiry "q1" exDB = some exInquiryOpen ∧
        exInquiryOpen.chatActive = true) ∧
      (closeHandler "q1" none (fun _ => .ok (some "**REJECT**\nLow budget.")) exDB).db.inquiries =
        exDB.inquiries.map (fun x =>
          if x.id = "q1"
          then closeUpd
            (generateRecommendation (fun _ => .ok (some "**REJECT**\nLow budget."))
              (closeRecommendationRequest none exDB exInquiryOpen)) x
          else x) :=
  ⟨⟨by decide, by decide, by decide⟩,
   close_stores_generated_recommendation.1 "q1" none
     (fun _ => .ok (some "**REJECT**\nLow budget.")) exDB exInquiryOpen
     (by decide) (by decide) (by decide)⟩

/-! ## Rerank behaviour (C5) -/

instance : IsTotal RankedInfluencer scoreDescRel :=
  ⟨fun a b => le_total (scoreKey b) (scoreKey a)⟩

instance : IsTrans RankedInfluencer scoreDescRel :=
  ⟨fun _ _ _ hab hbc => le_trans hbc hab⟩

/-- A candidate with no name and no username (empty display name). -/
def cNoName : Candidate := { id := "u1" }

/-- A candidate with an ordinary display name. -/
def cAlice : Candidate := { id := "u2", name := some "Alice" }

/-- Follows the spec's words for C5, for comparison with the code: the output
list is sorted non-increasingly by the claim's adjusted score. -/
def specSortedByAdjustedScore (entries : List RankedEntry) (l : List RankedInfluencer) : Prop :=
  List.Sorted
    (fun a b => adjustedScoreOf entries b.influencer ≤ adjustedScoreOf entries a.influencer) l

/-- C5 counterexample: with the empty criteria string (falsy in JS) the code
returns the input unchanged without scoring, so for a no-name candidate
(adjusted score −2 per the claim) listed before a normal one (score 0) the
output is not sorted by adjusted score — the claim as stated fails for the
criteria string `""`. -/
theorem rerank_empty_criteria_counterexample :
    (rerankInfluencers (fun _ => .ok (some [])) (some "") [cNoName, cAlice]).1 =
        toUnranked [cNoName, cAlice] ∧
      ¬ specSortedByAdjustedScore []
          (rerankInfluencers (fun _ => .ok (some [])) (some "") [cNoName, cAlice]).1 := by
  refine ⟨rfl, ?_⟩
  intro h
  have h' : List.Sorted
      (fun a b => adjustedScoreOf [] b.influencer ≤ adjustedScoreOf [] a.influencer)
      [({ influencer := cNoName } : RankedInfluencer), { influencer := cAlice }] := h
  have h2 := List.rel_of_sorted_cons h' _ (List.mem_singleton_self _)
  exact absurd h2 (by decide)

/-- C5 (amended): when the criteria string is non-empty, the candidate list is
non-empty, and the rerank LLM call returns (any) parsed JSON, the result is a
permutation of the input carrying each candidate's adjusted score, stably
sorted by non-increasing score; on a null criteria, an empty criteria string,
an empty input, or an LLM error, the input list is returned unchanged and
unscored. -/
theorem rerankInfluencers_spec :
    (∀ (llm : String × List Candidate → RerankResult) (criteriaText : String)
        (influencers : List Candidate) (ranked : Option (List RankedEntry)),
      criteriaText ≠ "" → influencers ≠ [] →
      llm (criteriaText, influencers) = .ok ranked →
      ((rerankInfluencers llm (some criteriaText) influencers).1.map
          (fun r => r.influencer)).Perm influencers ∧
        List.Sorted scoreDescRel (rerankInfluencers llm (some criteriaText) influencers).1 ∧
        (∀ r ∈ (rerankInfluencers llm (some criteriaText) influencers).1,
          r.score = some (adjustedScoreOf (ranked.getD []) r.influencer))) ∧
    (∀ (llm : String × List Candidate → RerankResult) (influencers : List Candidate),
      (rerankInfluencers llm none influencers).1 = toUnranked influencers) ∧
    (∀ (llm : String × List Candidate → RerankResult) (influencers : List Candidate),
      (rerankInfluencers llm (some "") influencers).1 = toUnranked influencers) ∧
    (∀ (llm : String × List Candidate → RerankResult) (criteria : Option String),
      (rerankInfluencers llm criteria []).1 = toUnranked []) ∧
    (∀ (llm : String × List Candidate → RerankResult) (criteriaText : String)
        (influencers : List Candidate),
      llm (criteriaText, influencers) = .err →
      (rerankInfluencers llm (some criteriaText) influencers).1 = toUnranked influencers) := by
  refine ⟨?_, fun _ _ => rfl, fun _ _ => rfl, ?_, ?_⟩
  · intro llm criteriaText influencers ranked hc hinf hllm
    have hg : (criteriaText = "" || influencers.isEmpty) = false := by
      cases influencers
      · exact absurd rfl hinf
      · simp [hc]
    have hval : (rerankInfluencers llm (some criteriaText) influencers).1 =
        (influencers.map (fun inf =>
          ({ influencer := inf,
             score := some (adjustedScoreOf (ranked.getD []) inf),
             reason := (rankedLookup (ranked.getD []) inf.id).bind
               (fun r => r.reason) } : RankedInfluencer))).insertionSort scoreDescRel := by
      simp only [rerankInfluencers, hg, Bool.false_eq_true, if_false, hllm]
    refine ⟨?_, ?_, ?_⟩
    · rw [hval]
      have hperm := (List.perm_insertionSort scoreDescRel
        (influencers.map (fun inf =>
          ({ influencer := inf,
             score := some (adjustedScoreOf (ranked.getD []) inf),
             reason := (rankedLookup (ranked.getD []) inf.id).bind
               (fun r => r.reason) } : RankedInfluencer)))).map (fun r => r.influencer)
      refine hperm.trans ?_
      rw [List.map_map]
      have h3 : List.map ((fun r : RankedInfluencer => r.influencer) ∘ fun inf =>
          ({ influencer := inf, score := some (adjustedScoreOf (ranked.getD []) inf),
             reason := (rankedLookup (ranked.getD []) inf.id).bind
               fun r => r.reason } : RankedInfluencer)) influencers = influencers :=
        List.map_id'' (fun _ => rfl) influencers
      rw [h3]
    · rw [hval]
      exact List.sorted_insertionSort scoreDescRel _
    · intro r hr
      rw [hval] at hr
      have hr' := (List.mem_insertionSort scoreDescRel).1 hr
      rcases List.mem_map.1 hr' with ⟨inf, _, rfl⟩
      rfl
  · intro llm criteria
    cases criteria with
    | none => rfl
    | some c =>
      by_cases hc : c = ""
      · subst hc; rfl
      · simp [rerankInfluencers, hc]
  · intro llm criteriaText influencers hllm
    by_cases hc : criteriaText = ""
    · subst hc; rfl
    · cases influencers with
      | nil => simp [rerankInfluencers, hc]
      | cons a as => simp [rerankInfluencers, hc, hllm]

/-- Witness for C5 (amended): a concrete successful rerank of two fixtures
(the no-name candidate is pushed below the named one). -/
theorem rerankInfluencers_spec_witness :
    ("tech" ≠ "" ∧ ([cNoName, cAlice] : List Candidate) ≠ [] ∧
      (fun _ : String × List Candidate => RerankResult.ok (some [])) ("tech", [cNoName, cAlice]) =
        .ok (some [])) ∧
      ((rerankInfluencers (fun _ => .ok (some [])) (some "tech") [cNoName, cAlice]).1.map
          (fun r => r.influencer)).Perm [cNoName, cAlice] ∧
        List.Sorted scoreDescRel
          (rerankInfluencers (fun _ => .ok (some [])) (some "tech") [cNoName, cAlice]).1 ∧
        (∀ r ∈ (rerankInfluencers (fun _ => .ok (some [])) (some "tech") [cNoName, cAlice]).1,
          r.score = some (adjustedScoreOf ((some ([] : List RankedEntry)).getD [])
            r.influencer)) :=
  ⟨⟨by decide, by decide, rfl⟩,
   rerankInfluencers_spec.1 (fun _ => .ok (some [])) "tech" [cNoName, cAlice] (some [])
     (by decide) (by decide) rfl⟩

/-! ## Pipeline order and final save (C4) -/

/-- A trimmed criteria string returned by `generateCriteria` is never empty. -/
theorem generateCriteria_ne_empty {llm : Campaign → LLMResult} {campaign : Campaign}
    {c : String} (h : generateCriteria llm campaign = some c) : c ≠ "" := by
  intro hc
  subst hc
  cases hr : llm campaign with
  | err => simp [generateCriteria, hr] at h
  | ok content =>
    cases content with
    | none => simp [generateCriteria, hr] at h
    | some s =>
      simp only [generateCriteria, hr] at h
      by_cases hs : jsTrim s = ""
      · rw [if_pos hs] at h
        exact Option.noConfusion h
      · rw [if_neg hs] at h
        exact hs (Option.some.inj h)

/-- With non-falsy criteria, the filter-extraction LLM call always happens. -/
theorem extractFilters_trace {llm : String × Campaign → ExtractResult} {c : String}
    {campaign : Campaign} (hc : c ≠ "") :
    (extractFilters llm (some c) campaign).2 = [.llmExtractFilters] := by
  simp only [extractFilters]
  rw [if_neg hc]
  cases llm (c, campaign) <;> rfl

/-- With non-falsy criteria and a non-empty candidate list, the rerank LLM
call always happens. -/
theorem rerankInfluencers_trace {llm : String × List Candidate → RerankResult} {c : String}
    {influencers : List Candidate} (hc : c ≠ "") (hinf : influencers ≠ []) :
    (rerankInfluencers llm (some c) influencers).2 = [.llmRerank] := by
  have hg : (c = "" || influencers.isEmpty) = false := by
    cases influencers
    · exact absurd rfl hinf
    · simp [hc]
  simp only [rerankInfluencers, hg, Bool.false_eq_true, if_false]
  cases llm (c, influencers) <;> rfl

/-- The influencer query only reads tables that campaign saves never touch. -/
theorem findInfluencers_saveCampaignSearchResult (filters : Option SearchFilter)
    (id : String) (st : SearchSaveStatus) (sc : Option String)
    (mi : Option (List RankedInfluencer)) (db : DB) :
    findInfluencers filters (saveCampaignSearchResult id st sc mi db) =
      findInfluencers filters db := rfl

/-- Two saves to the same campaign compose to the second save alone (every
saved column is overwritten). -/
theorem saveCampaignSearchResult_twice (id : String) (st1 st2 : SearchSaveStatus)
    (sc1 sc2 : Option String) (mi1 mi2 : Option (List RankedInfluencer)) (db : DB) :
    (saveCampaignSearchResult id st2 sc2 mi2
        (saveCampaignSearchResult id st1 sc1 mi1 db)).campaigns =
      db.campaigns.map (fun c => if c.id = id then saveSearchUpd st2 sc2 mi2 c else c) := by
  simp only [saveCampaignSearchResult, List.map_map]
  apply List.map_congr_left
  intro x _
  by_cases hx : x.id = id
  · simp only [Function.comp]
    rw [if_pos hx, if_pos (show (saveSearchUpd st1 sc1 mi1 x).id = id from hx), if_pos hx]
    rfl
  · simp only [Function.comp]
    rw [if_neg hx, if_neg hx]

/-- The filter object the pipeline extracts for a campaign. -/
def processedFilters (o : ProcessOracles) (candidate : Campaign) : Option SearchFilter :=
  (extractFilters o.extractLLM (generateCriteria o.criteriaLLM candidate) candidate).1

/-- The candidate list the pipeline queries for a campaign. -/
def processedInfluencers (o : ProcessOracles) (candidate : Campaign) (db : DB) : List Candidate :=
  findInfluencers (processedFilters o candidate) db

/-- The reranked list the pipeline saves for a campaign. -/
def processedRanked (o : ProcessOracles) (candidate : Campaign) (db : DB) : List RankedInfluencer :=
  (rerankInfluencers o.rerankLLM (generateCriteria o.criteriaLLM candidate)
    (processedInfluencers o candidate db)).1

/-- C4: processing a campaign saves it back with status `"waiting_approval"`,
the extracted filter (else the criteria text) as `searchCriteria`, and the
reranked list as `matchedInfluencers`; the recorded step trace runs criteria
generation, filter extraction, the influencer query, the rerank, and the
final save in that order (the LLM steps are skipped only when their input is
empty). -/
theorem processHandler_pipeline (user : UserRow) (o : ProcessOracles) (db : DB)
    (candidate : Campaign)
    (huser : user.userType = "business")
    (hcand : getOldestProcessingCampaign user.id db = some candidate) :
    (processHandler user o db).db.campaigns =
      db.campaigns.map (fun c =>
        if c.id = candidate.id
        then { c with
               status := "waiting_approval",
               searchCriteria := some (savedSearchCriteria (processedFilters o candidate)
                 (generateCriteria o.criteriaLLM candidate)),
               matchedInfluencers := some (processedRanked o candidate db) }
        else c) ∧
      (processHandler user o db).trace =
        [.saveSearchResult "processing", .llmGenerateCriteria] ++
          (extractFilters o.extractLLM (generateCriteria o.criteriaLLM candidate) candidate).2 ++
          [.dbFindInfluencers] ++
          (rerankInfluencers o.rerankLLM (generateCriteria o.criteriaLLM candidate)
            (processedInfluencers o candidate db)).2 ++
          [.saveSearchResult "waiting_approval"] ∧
      (∀ c, generateCriteria o.criteriaLLM candidate = some c →
        processedInfluencers o candidate db ≠ [] →
        [PipelineStep.llmGenerateCriteria, .llmExtractFilters, .dbFindInfluencers, .llmRerank,
          .saveSearchResult "waiting_approval"].Sublist (processHandler user o db).trace) := by
  have hbiz : ¬ user.userType ≠ "business" := fun h => h huser
  have htrace : (processHandler user o db).trace =
      [.saveSearchResult "processing", .llmGenerateCriteria] ++
        (extractFilters o.extractLLM (generateCriteria o.criteriaLLM candidate) candidate).2 ++
        [.dbFindInfluencers] ++
        (rerankInfluencers o.rerankLLM (generateCriteria o.criteriaLLM candidate)
          (processedInfluencers o candidate db)).2 ++
        [.saveSearchResult "waiting_approval"] := by
    simp only [processHandler, if_neg hbiz, hcand, findInfluencers_saveCampaignSearchResult,
      processedInfluencers, processedFilters]
  refine ⟨?_, htrace, ?_⟩
  · simp only [processHandler, if_neg hbiz, hcand]
    rw [saveCampaignSearchResult_twice]
    apply List.map_congr_left
    intro x _
    by_cases hx : x.id = candidate.id
    · rw [if_pos hx, if_pos hx]
      rfl
    · rw [if_neg hx, if_neg hx]
  · intro c hcrit hne
    have hc : c ≠ "" := generateCriteria_ne_empty hcrit
    rw [htrace, hcrit, extractFilters_trace hc, rerankInfluencers_trace hc hne]
    exact List.Sublist.cons _ (List.Sublist.refl _)

/-- The oracle fixture for the C4 witness: all three LLM calls succeed. -/
def procOracles : ProcessOracles :=
  { criteriaLLM := fun _ => .ok (some "tech creators"),
    extractLLM := fun _ => .ok {},
    rerankLLM := fun _ => .ok (some []) }

/-- The business-user fixture. -/
def bizUser : UserRow := { id := "biz1", userType := "business" }

/-- Witness for C4: on the fixture database the full five-step order is
realized. -/
theorem processHandler_pipeline_witness :
    (bizUser.userType = "business" ∧
        getOldestProcessingCampaign "biz1" exDB = some exCampaign ∧
        generateCriteria procOracles.criteriaLLM exCampaign = some "tech creators" ∧
        processedInfluencers procOracles exCampaign exDB ≠ []) ∧
      [PipelineStep.llmGenerateCriteria, .llmExtractFilters, .dbFindInfluencers, .llmRerank,
        .saveSearchResult "waiting_approval"].Sublist (processHandler bizUser procOracles exDB).trace :=
  ⟨⟨by decide, by decide, by decide, by decide⟩,
   (processHandler_pipeline bizUser procOracles exDB exCampaign (by decide)
       (by decide)).2.2 "tech creators" (by decide) (by decide)⟩

end PeriAI
